import Mathlib

/-!
Verification development for the ml-linux-scheduler data-collection core.

The definitions below are a shallow embedding of the Python sources:

* `src/bpf/rapl_collector.py`   (`RAPLCollector`)
* `src/bpf/state_collector_simple.py` (`SimpleStateCollector`)
* `preprocessing/merge_dataset.py`  (the nearest-timestamp merge)

Python integers are embedded as `Int`/`Nat`; Python floats (CPU-time
accounting values and load percentages) are embedded as exact rationals
`ℚ`, so the algebraic contracts of the estimator are stated exactly.
File and process reads are inputs: each embedded operation receives the
values the corresponding Python call would have returned.
-/

set_option linter.unusedVariables false

/- ------------------------------------------------------------------
   RAPLCollector (src/bpf/rapl_collector.py)
   ------------------------------------------------------------------ -/

/-- One record built by `RAPLCollector.collect_sample` (lines 75-81). -/
structure EnergyRecord where
  timestamp : Nat
  package : String
  energy_uj : Int
  delta_uj : Int
  total_uj : Int
deriving DecidableEq

/-- Mutable per-domain state kept in `self.packages` entries: the
`prev_energy` / `total_energy` accumulators, plus `max_energy`, the
content of the domain's `max_energy_range_uj` file (read at wraparound). -/
structure RaplPackage where
  name : String
  prev_energy : Int
  total_energy : Int
  max_energy : Int
deriving DecidableEq

/-- Loop body of `collect_sample` (lines 61-83) for a single package.
`current_energy` is the result of `read_energy` (the counter file's value,
or `0` if the read failed). Returns the updated package state and the
record appended for this package. -/
def collect_sample_step (ts : Nat) (pkg : RaplPackage) (current_energy : Int) :
    RaplPackage × EnergyRecord :=
  let delta :=
    if current_energy < pkg.prev_energy then
      (pkg.max_energy - pkg.prev_energy) + current_energy
    else
      current_energy - pkg.prev_energy
  let total := pkg.total_energy + delta
  ({ pkg with prev_energy := current_energy, total_energy := total },
   { timestamp := ts, package := pkg.name, energy_uj := current_energy,
     delta_uj := delta, total_uj := total })

/-- `collect_sample` iterated over a sequence of samples for one domain;
each sample supplies the timestamp and the raw reading. Returns the final
package state and the records in emission order. -/
def run_samples : RaplPackage → List (Nat × Int) → RaplPackage × List EnergyRecord
  | pkg, [] => (pkg, [])
  | pkg, (ts, r) :: rest =>
    let pr := collect_sample_step ts pkg r
    let rec' := run_samples pr.1 rest
    (rec'.1, pr.2 :: rec'.2)

/-- `collect_sample` (lines 57-85): one pass over all packages. The raw
readings are positional; a missing reading stands for a failed
`read_energy`, which returns `0`. -/
def collect_sample : Nat → List RaplPackage → List Int → List RaplPackage × List EnergyRecord
  | _, [], _ => ([], [])
  | ts, p :: ps, rs =>
    let pr := collect_sample_step ts p (rs.headD 0)
    let rest := collect_sample ts ps rs.tail
    (pr.1 :: rest.1, pr.2 :: rest.2)

/-- The pre-loop re-priming in `collect` (lines 94-95):
`pkg['prev_energy'] = self.read_energy(pkg)` for every package. -/
def set_prev_readings : List RaplPackage → List Int → List RaplPackage
  | [], _ => []
  | p :: ps, rs => { p with prev_energy := rs.headD 0 } :: set_prev_readings ps rs.tail

/-- One iteration of the `while True` loop in `collect` (lines 102-106):
take a sample and write each of its records to the open log file. -/
def rapl_sample_step (acc : List RaplPackage × List EnergyRecord)
    (sample : Nat × List Int) : List RaplPackage × List EnergyRecord :=
  let st := collect_sample sample.1 acc.1 sample.2
  (st.1, acc.2 ++ st.2)

/-- `RAPLCollector.collect` (lines 87-121), returning the content of the
output file when the run ends. `initial_log` is whatever the output file
held before the run. With zero discovered domains the guard at lines
88-90 (`if not self.packages: return`) exits before the file is ever
opened, so the file keeps its prior content. Otherwise line 101 opens
the file with mode `'w'`, so the file is truncated and the log of the
run starts empty, independently of `initial_log`. -/
def rapl_collect (initial_log : List EnergyRecord) (pkgs : List RaplPackage)
    (init_readings : List Int) (samples : List (Nat × List Int)) : List EnergyRecord :=
  if pkgs = [] then initial_log
  else
    let pkgs0 := set_prev_readings pkgs init_readings
    (samples.foldl rapl_sample_step (pkgs0, [])).2

/- ------------------------------------------------------------------
   SimpleStateCollector: CPU load (state_collector_simple.py 36-60)
   ------------------------------------------------------------------ -/

/-- One `psutil` per-CPU accounting entry, restricted to the seven fields
the collector reads. Values are cumulative CPU-time counters. -/
structure CpuTimes where
  user : ℚ
  nice : ℚ
  system : ℚ
  idle : ℚ
  iowait : ℚ
  irq : ℚ
  softirq : ℚ
deriving DecidableEq

/-- The seven-field sum computed for `prev_total` / `curr_total`
(lines 43-51). -/
def cpu_times_total (t : CpuTimes) : ℚ :=
  t.user + t.nice + t.system + t.idle + t.iowait + t.irq + t.softirq

/-- `SimpleStateCollector.get_cpu_load` (lines 36-60). `prev_times` plays
the role of `self.prev_cpu_times`. An index beyond either list is the
`cpu_id >= len(...)` guard and yields `0`. -/
def get_cpu_load (prev_times current_times : List CpuTimes) (cpu_id : Nat) : ℚ :=
  match current_times[cpu_id]?, prev_times[cpu_id]? with
  | some curr, some prev =>
    let total_delta := cpu_times_total curr - cpu_times_total prev
    let idle_delta := curr.idle - prev.idle
    if total_delta ≤ 0 then 0
    else max 0 (min 100 (100 * (1 - idle_delta / total_delta)))
  | _, _ => 0

/- ------------------------------------------------------------------
   SimpleStateCollector: snapshot machinery
   (state_collector_simple.py 62-223)
   ------------------------------------------------------------------ -/

/-- `cpu_to_numa` (lines 63-68). `topo cpu_id` models reading
`/sys/devices/system/cpu/cpu{N}/node_id`: `some node` is a successful
read, `none` is any failure, which takes the `cpu_id // 8` fallback. -/
def cpu_to_numa (topo : Nat → Option Int) (cpu_id : Nat) : Int :=
  match topo cpu_id with
  | some node => node
  | none => (cpu_id : Int) / 8

/-- Python's `round(x, 2)`: rounding to the nearest multiple of `1/100`
(the binary-float tie-breaking detail is immaterial to every claim). -/
def round2 (x : ℚ) : ℚ := (round (x * 100) : ℤ) / 100

/-- The fields of one `psutil.process_iter` entry that the collector
requests (line 122). `status` is the raw status string; `cpu_num` is
`none` when psutil reports `None`. Processes whose `info` access raised
`NoSuchProcess`/`AccessDenied` are skipped by the source and simply do
not appear in the input list. -/
structure ProcInfo where
  pid : Nat
  name : String
  cpu_num : Option Int
  status : String
deriving DecidableEq

/-- The filtering in the first snapshot loop (lines 124-137): drop
entries with no CPU, a CPU outside `[0, num_cpus)`, or a status other
than running/sleeping. Survivors are `(pid, name, cpu)`. -/
def proc_filter (num_cpus : Nat) (p : ProcInfo) : Option (Nat × String × Nat) :=
  match p.cpu_num with
  | none => none
  | some c =>
    if c < 0 ∨ (num_cpus : Int) ≤ c then none
    else if p.status = "running" ∨ p.status = "sleeping" then
      some (p.pid, p.name, c.toNat)
    else none

/-- The processes that survive the filter, in iteration order. -/
def filtered_procs (num_cpus : Nat) (procs : List ProcInfo) : List (Nat × String × Nat) :=
  procs.filterMap (proc_filter num_cpus)

/-- Python-`dict` lookup on an insertion-ordered association list. -/
def dict_lookup (m : List (Nat × α)) (k : Nat) : Option α :=
  (m.find? (fun e => e.1 == k)).map (fun e => e.2)

/-- Python-`dict` assignment `m[k] = v`: replace in place if the key
exists, else append (insertion order preserved, as `dict` iteration). -/
def dict_insert (m : List (Nat × α)) (k : Nat) (v : α) : List (Nat × α) :=
  if m.any (fun e => e.1 == k) then
    m.map (fun e => if e.1 == k then (k, v) else e)
  else m ++ [(k, v)]

/-- `current_tasks` after the first loop: `current_tasks[pid] = cpu_num`
for every filtered process (line 136). -/
def current_tasks_of (num_cpus : Nat) (procs : List ProcInfo) : List (Nat × Nat) :=
  (filtered_procs num_cpus procs).foldl (fun m t => dict_insert m t.1 t.2.2) []

/-- `cpu_runnable_counts` after the first loop (line 137), with the
`defaultdict` / `.get(cpu, 0)` default built in. -/
def runnable_counts (num_cpus : Nat) (procs : List ProcInfo) (c : Nat) : Nat :=
  ((filtered_procs num_cpus procs).filter (fun t => t.2.2 == c)).length

/-- `self.task_info` after the first loop (lines 139-143): insert the
observed name for each filtered pid not already present. (The
`first_seen` wall-clock value stored alongside the name is never read by
record creation or by any claim and is omitted.) -/
def task_info_after (num_cpus : Nat) (procs : List ProcInfo)
    (ti0 : List (Nat × String)) : List (Nat × String) :=
  (filtered_procs num_cpus procs).foldl
    (fun ti t => if ti.any (fun e => e.1 == t.1) then ti else ti ++ [(t.1, t.2.1)]) ti0

/-- One record built by `create_record` (lines 71-113). In the embedding
every external read is an input, so the `except` branch returning `None`
is unreachable and a record is always produced. -/
structure MigrationRecord where
  timestamp : Nat
  pid : Nat
  comm : String
  src_cpu : Nat
  src_load : ℚ
  src_runqueue_len : Nat
  src_numa_node : Int
  src_cpu_idle : Nat
  dst_cpu : Nat
  dst_load : ℚ
  dst_runqueue_len : Nat
  dst_numa_node : Int
  dst_cpu_idle : Nat
  cross_node : Nat
  load_diff : ℚ
  load_imbalance : ℚ
  decision : Nat
deriving DecidableEq

/-- The inputs `create_record` and the second snapshot loop take from the
enclosing collector and from the first loop: `self`'s fields as they
stand during the loop, the tick's clock value, the current CPU times and
the per-CPU runnable counts. -/
structure SnapshotEnv where
  topo : Nat → Option Int
  now : Nat
  task_locations : List (Nat × Nat)
  task_info : List (Nat × String)
  num_cpus : Nat
  prev_times : List CpuTimes
  current_times : List CpuTimes
  runq : Nat → Nat

/-- `create_record` (lines 71-113). -/
def create_record (env : SnapshotEnv) (pid src_cpu dst_cpu : Nat)
    (migrated : Bool) : MigrationRecord :=
  let src_load := get_cpu_load env.prev_times env.current_times src_cpu
  let dst_load := get_cpu_load env.prev_times env.current_times dst_cpu
  let src_numa := cpu_to_numa env.topo src_cpu
  let dst_numa := cpu_to_numa env.topo dst_cpu
  let task_name := (dict_lookup env.task_info pid).getD "unknown"
  { timestamp := env.now
    pid := pid
    comm := task_name
    src_cpu := src_cpu
    src_load := round2 src_load
    src_runqueue_len := env.runq src_cpu
    src_numa_node := src_numa
    src_cpu_idle := if src_load < 5 then 1 else 0
    dst_cpu := dst_cpu
    dst_load := round2 dst_load
    dst_runqueue_len := env.runq dst_cpu
    dst_numa_node := dst_numa
    dst_cpu_idle := if dst_load < 5 then 1 else 0
    cross_node := if src_numa ≠ dst_numa then 1 else 0
    load_diff := round2 |src_load - dst_load|
    load_imbalance := round2 (src_load - dst_load)
    decision := if migrated then 1 else 0 }

/-- The second snapshot loop (lines 148-171): walk `current_tasks` in
iteration order carrying `self.stats['total']`, emitting a positive
record for each observed CPU change, a synthetic negative record for a
non-change when the running total is divisible by 5, and nothing
otherwise; the total is incremented once per observation. -/
def snapshot_records (env : SnapshotEnv) : List (Nat × Nat) → Nat → List MigrationRecord
  | [], _ => []
  | (pid, cpu_num) :: rest, total =>
    match dict_lookup env.task_locations pid with
    | some prev_cpu =>
      if prev_cpu ≠ cpu_num then
        create_record env pid prev_cpu cpu_num true
          :: snapshot_records env rest (total + 1)
      else if total % 5 == 0 then
        create_record env pid cpu_num ((cpu_num + 1) % env.num_cpus) false
          :: snapshot_records env rest (total + 1)
      else snapshot_records env rest (total + 1)
    | none => snapshot_records env rest (total + 1)

/-- The per-instance mutable state of `SimpleStateCollector`, together
with `log`, the content of the output file (`flush_buffer` appends the
buffer to it). -/
structure CollectorState where
  num_cpus : Nat
  prev_cpu_times : List CpuTimes
  task_locations : List (Nat × Nat)
  task_info : List (Nat × String)
  stats_total : Nat
  stats_positive : Nat
  stats_negative : Nat
  data_buffer : List MigrationRecord
  buffer_size : Nat
  log : List MigrationRecord

/-- External inputs of one `take_snapshot` call: the process list, the
fresh `psutil.cpu_times(percpu=True)` reading, and the clock value. -/
structure Tick where
  procs : List ProcInfo
  cpu_times : List CpuTimes
  now : Nat

/-- `flush_buffer` (lines 186-203): append every buffered record to the
output file (opened with mode `'a'`) and clear the buffer; a no-op on an
empty buffer. -/
def flush_buffer (s : CollectorState) : CollectorState :=
  if s.data_buffer = [] then s
  else { s with log := s.log ++ s.data_buffer, data_buffer := [] }

/-- The `SnapshotEnv` a `take_snapshot` call assembles from the collector
state and the tick before entering the second loop. -/
def snapshot_env (topo : Nat → Option Int) (s : CollectorState) (t : Tick) : SnapshotEnv :=
  { topo := topo
    now := t.now
    task_locations := s.task_locations
    task_info := task_info_after s.num_cpus t.procs s.task_info
    num_cpus := s.num_cpus
    prev_times := s.prev_cpu_times
    current_times := t.cpu_times
    runq := runnable_counts s.num_cpus t.procs }

/-- `take_snapshot` (lines 116-183): build `current_tasks`, the runnable
counts and the updated `task_info`; run the second loop; then replace
`task_locations` wholesale, prune `task_info` to current pids, adopt the
new CPU times, and flush when the buffer has reached `buffer_size`. The
stats counters are advanced by the same amounts as the per-iteration
increments of the source. -/
def take_snapshot (topo : Nat → Option Int) (s : CollectorState) (t : Tick) : CollectorState :=
  let cur := current_tasks_of s.num_cpus t.procs
  let recs := snapshot_records (snapshot_env topo s t) cur s.stats_total
  let s' : CollectorState :=
    { s with
      data_buffer := s.data_buffer ++ recs
      stats_total := s.stats_total + cur.length
      stats_positive := s.stats_positive + (recs.filter (fun r => r.decision == 1)).length
      stats_negative := s.stats_negative + (recs.filter (fun r => r.decision == 0)).length
      task_locations := cur
      task_info := (task_info_after s.num_cpus t.procs s.task_info).filter
        (fun e => cur.any (fun c => c.1 == e.1))
      prev_cpu_times := t.cpu_times }
  if s'.buffer_size ≤ s'.data_buffer.length then flush_buffer s' else s'

/-- `collect` (lines 206-223): run `take_snapshot` once per tick (the
tick list's length is fixed externally by the configured duration or the
interrupt) and, in the `finally` block, flush once more whatever the
buffer holds. -/
def collect (topo : Nat → Option Int) (s0 : CollectorState) (ticks : List Tick) : CollectorState :=
  flush_buffer (ticks.foldl (take_snapshot topo) s0)

/-- The records `collect` appends to the buffer across its run, in
order. -/
def collect_emitted (topo : Nat → Option Int) : CollectorState → List Tick → List MigrationRecord
  | _, [] => []
  | s, t :: ts =>
    snapshot_records (snapshot_env topo s t) (current_tasks_of s.num_cpus t.procs) s.stats_total
      ++ collect_emitted topo (take_snapshot topo s t) ts

/- ------------------------------------------------------------------
   merge_dataset.py: nearest-timestamp join (lines 42-61)
   ------------------------------------------------------------------ -/

/-- The row of some other stream whose timestamp is nearest to `t`, as
`pd.merge_asof(..., on="timestamp", direction="nearest")` selects for a
left row with timestamp `t`: the row minimising `|t - timestamp|`, the
earlier row winning a tie (for sorted inputs `merge_asof` resolves ties
backward). `none` only when the stream is empty. Rows are a timestamp
paired with the rest of the record. -/
def nearest_row (t : Int) : List (Int × α) → Option (Int × α)
  | [] => none
  | r :: rs =>
    match nearest_row t rs with
    | none => some r
    | some b => if |t - b.1| < |t - r.1| then some b else some r

/-- The one-directional enrichment of `main` (lines 48-61): one output
row per state row, each paired with the nearest row of the other stream.
Merging with the PMC stream and then with the RAPL stream applies this
once per stream, both keyed on the state row's timestamp. -/
def merge_nearest (state other : List (Int × α)) : List ((Int × α) × Option (Int × α)) :=
  state.map (fun srow => (srow, nearest_row srow.1 other))

/- ------------------------------------------------------------------
   Concrete inputs for witnesses and counterexamples
   ------------------------------------------------------------------ -/

/-- A RAPL package as `discover_rapl_domains` builds it (accumulators 0),
whose `max_energy_range_uj` file holds 1000. -/
def pkgW : RaplPackage :=
  { name := "package-0", prev_energy := 0, total_energy := 0, max_energy := 1000 }

/-- The spec's counter sequence `[100, 900, 50]`, with timestamps. -/
def samplesW : List (Nat × Int) := [(0, 100), (1, 900), (2, 50)]

/-- A record persisted by an earlier energy-collector run. -/
def oldRunRecord : EnergyRecord :=
  { timestamp := 0, package := "old-run", energy_uj := 1, delta_uj := 1, total_uj := 1 }

/-- An accounting snapshot with all counters 0. -/
def ctZero : CpuTimes :=
  { user := 0, nice := 0, system := 0, idle := 0, iowait := 0, irq := 0, softirq := 0 }

/-- An accounting snapshot with 1 unit of user time and 1 of idle time. -/
def ctBusyIdle : CpuTimes :=
  { user := 1, nice := 0, system := 0, idle := 1, iowait := 0, irq := 0, softirq := 0 }

/-- A collector state about to take a snapshot: 4 CPUs, four tasks
(pids 1-4) last seen on CPU 0, total-observation counter at its initial
value 0. -/
def stateW : CollectorState :=
  { num_cpus := 4
    prev_cpu_times := []
    task_locations := [(1, 0), (2, 0), (3, 0), (4, 0)]
    task_info := []
    stats_total := 0
    stats_positive := 0
    stats_negative := 0
    data_buffer := []
    buffer_size := 50
    log := [] }

/-- A tick in which the same four tasks are all still on CPU 0: four
non-migrating observations. -/
def tickW : Tick :=
  { procs :=
      [ { pid := 1, name := "taskA", cpu_num := some 0, status := "running" }
      , { pid := 2, name := "taskB", cpu_num := some 0, status := "sleeping" }
      , { pid := 3, name := "taskC", cpu_num := some 0, status := "running" }
      , { pid := 4, name := "taskD", cpu_num := some 0, status := "running" } ]
    cpu_times := []
    now := 7 }

/-- A topology source that always fails (every lookup falls back). -/
def topoW : Nat → Option Int := fun _ => none

/-- The negative record the snapshot of `stateW`/`tickW` emits for pid 1
(first observation, total counter 0). -/
def negRecordW : MigrationRecord :=
  create_record (snapshot_env topoW stateW tickW) 1 0 1 false

/- ==================================================================
   Theorems
   ================================================================== -/

/-- C4: starting from a previous-reading accumulator of 0 with
`max_counter_value = 1000`, the raw counter sequence `[100, 900, 50]`
produces wrap-corrected deltas `[100, 800, 150]` — in particular
`(1000 - 900) + 50 = 150` between the 2nd and 3rd readings — and the
cumulative totals `[100, 900, 1050]`, so the total after all three
readings is `100 + 800 + 150 = 1050`. -/
theorem rapl_wraparound_example :
    (run_samples pkgW samplesW).2.map (fun r => r.delta_uj) = [100, 800, 150] ∧
    (run_samples pkgW samplesW).2.map (fun r => r.total_uj) = [100, 900, 1050] ∧
    (run_samples pkgW samplesW).1.total_energy = 1050 := by decide

/-- C5: for one energy domain whose raw readings and previous-reading
accumulator stay within `[0, max_counter_value]`, the running `total_uj`
is monotonically non-decreasing across any sample sequence, wrapping
samples included. -/
theorem rapl_total_monotone (samples : List (Nat × Int)) :
    ∀ pkg : RaplPackage,
      0 ≤ pkg.prev_energy → pkg.prev_energy ≤ pkg.max_energy →
      (∀ s ∈ samples, 0 ≤ s.2 ∧ s.2 ≤ pkg.max_energy) →
      List.Chain' (· ≤ ·)
        (pkg.total_energy :: (run_samples pkg samples).2.map (fun r => r.total_uj)) := by
  induction samples with
  | nil => intro pkg _ _ _; simp [run_samples]
  | cons s rest ih =>
    intro pkg h0 h1 hr
    obtain ⟨ts, r⟩ := s
    have hr0 := hr (ts, r) (List.mem_cons_self _ _)
    have hrest : ∀ s ∈ rest, 0 ≤ s.2 ∧ s.2 ≤ pkg.max_energy :=
      fun s hs => hr s (List.mem_cons_of_mem _ hs)
    simp only [run_samples, collect_sample_step, List.map_cons, List.chain'_cons]
    constructor
    · by_cases hw : r < pkg.prev_energy
      · simp only [if_pos hw]; omega
      · simp only [if_neg hw]; omega
    · have := ih { pkg with
        prev_energy := r
        total_energy := pkg.total_energy +
          if r < pkg.prev_energy then pkg.max_energy - pkg.prev_energy + r
          else r - pkg.prev_energy }
        (by simpa using hr0.1) (by simpa using hr0.2) (by simpa using hrest)
      simpa using this

/-- Witness for C5 at the spec's wrapping sequence. -/
theorem rapl_total_monotone_witness :
    List.Chain' (· ≤ ·)
      (pkgW.total_energy :: (run_samples pkgW samplesW).2.map (fun r => r.total_uj)) :=
  rapl_total_monotone samplesW pkgW (by decide) (by decide) (by decide)

/-- C2, counterexample: a record persisted by an earlier energy-collector
run is no longer in the log after a later run on the same output path,
even though that run performed a sample write (the log is non-empty):
`collect` opens the log with mode `'w'`, truncating it. -/
theorem rapl_log_truncation_counterexample :
    oldRunRecord ∉ rapl_collect [oldRunRecord] [pkgW] [0] [(0, [5])] ∧
    rapl_collect [oldRunRecord] [pkgW] [0] [(0, [5])] ≠ [] := by decide

/-- C2, amended: each flush of the state collector appends the buffer to
the log, leaving every previously written record in place, and within one
energy-collector run each sample write only appends; with zero discovered
domains the energy collector returns before touching the file, leaving
the prior log intact; but whenever at least one domain exists, the energy
collector truncates its output file when the run starts, so its final log
is independent of (and replaces) whatever the file held before. -/
theorem append_only_within_run :
    (∀ s : CollectorState, (flush_buffer s).log = s.log ++ s.data_buffer) ∧
    (∀ (acc : List RaplPackage × List EnergyRecord) (sample : Nat × List Int),
      ∃ new, (rapl_sample_step acc sample).2 = acc.2 ++ new) ∧
    (∀ (initial_log : List EnergyRecord) (init_readings : List Int)
        (samples : List (Nat × List Int)),
      rapl_collect initial_log [] init_readings samples = initial_log) ∧
    (∀ (initial_log : List EnergyRecord) (pkgs : List RaplPackage)
        (init_readings : List Int) (samples : List (Nat × List Int)),
      pkgs ≠ [] →
      rapl_collect initial_log pkgs init_readings samples
        = rapl_collect [] pkgs init_readings samples) := by
  refine ⟨fun s => ?_,
    fun acc sample => ⟨(collect_sample sample.1 acc.1 sample.2).2, rfl⟩,
    fun _ _ _ => rfl,
    fun initial_log pkgs init_readings samples h => ?_⟩
  · unfold flush_buffer
    split
    · simp [*]
    · rfl
  · unfold rapl_collect
    rw [if_neg h, if_neg h]

/-- Witness for C2's amended truncation part: with one package present,
the run over the previously non-empty log yields the same final log as
over the empty one. -/
theorem append_only_within_run_witness :
    rapl_collect [oldRunRecord] [pkgW] [0] [(0, [5])]
      = rapl_collect [] [pkgW] [0] [(0, [5])] :=
  append_only_within_run.2.2.2 [oldRunRecord] [pkgW] [0] [(0, [5])] (by decide)

/-- Across any block of non-migrating observations, the second snapshot
loop emits one negative record exactly when the running total counter is
divisible by 5, the test running before the increment; the count is the
number of multiples of 5 in `[total, total + N)`. -/
theorem snapshot_negatives_count (env : SnapshotEnv) :
    ∀ (obs : List (Nat × Nat)) (total : Nat),
      (∀ p ∈ obs, dict_lookup env.task_locations p.1 = some p.2) →
      ((snapshot_records env obs total).filter (fun r => r.decision == 0)).length
        = (total + obs.length + 4) / 5 - (total + 4) / 5 := by
  intro obs
  induction obs with
  | nil => intro total _; simp [snapshot_records]
  | cons p rest ih =>
    intro total hall
    obtain ⟨pid, cpu⟩ := p
    have hp : dict_lookup env.task_locations pid = some cpu :=
      hall (pid, cpu) (List.mem_cons_self _ _)
    have hrest : ∀ q ∈ rest, dict_lookup env.task_locations q.1 = some q.2 :=
      fun q hq => hall q (List.mem_cons_of_mem _ hq)
    simp only [snapshot_records, hp, ne_eq, not_true_eq_false, if_false, if_neg]
    by_cases h5 : total % 5 = 0
    · rw [if_pos (by simpa using h5)]
      have hdec : ((create_record env pid cpu ((cpu + 1) % env.num_cpus) false).decision
          == 0) = true := by simp [create_record]
      rw [List.filter_cons, if_pos hdec, List.length_cons, ih (total + 1) hrest]
      simp only [List.length_cons]
      omega
    · rw [if_neg (by simpa using h5), ih (total + 1) hrest]
      simp only [List.length_cons]
      omega

/-- C1, amended: for a fixed stride of 5, across any sequence of N
non-migrating observations with the total-observation counter starting at
its initial value 0, the number of negative records emitted equals
`ceil(N / 5) = floor((N + 4) / 5)`, because the divisibility test runs
before the counter is incremented and the counter starts at 0 (so the
1st, 6th, 11th, ... observations emit negatives): N = 4 yields 1 negative
and N = 5 yields 1. -/
theorem negative_stride_count (env : SnapshotEnv) (obs : List (Nat × Nat))
    (hstay : ∀ p ∈ obs, dict_lookup env.task_locations p.1 = some p.2) :
    ((snapshot_records env obs 0).filter (fun r => r.decision == 0)).length
      = (obs.length + 4) / 5 := by
  rw [snapshot_negatives_count env obs 0 hstay]
  omega

/-- Witness for C1's amended count: four non-migrating observations from
the counter's initial value yield `(4 + 4) / 5 = 1` negative record. -/
theorem negative_stride_count_witness :
    ((snapshot_records (snapshot_env topoW stateW tickW)
        (current_tasks_of 4 tickW.procs) 0).filter (fun r => r.decision == 0)).length
      = ((current_tasks_of 4 tickW.procs).length + 4) / 5 :=
  negative_stride_count (snapshot_env topoW stateW tickW)
    (current_tasks_of 4 tickW.procs) (by decide)

/-- C1, counterexample: a snapshot processing N = 4 non-migrating
observations with the total counter at its initial value 0 emits 1
negative record, while the claim's `floor(N / 5)` predicts `4 / 5 = 0`. -/
theorem negative_stride_counterexample :
    ((snapshot_records (snapshot_env topoW stateW tickW)
        (current_tasks_of 4 tickW.procs) 0).filter (fun r => r.decision == 0)).length = 1 ∧
    (current_tasks_of 4 tickW.procs).length = 4 ∧ (4 : Nat) / 5 = 0 := by decide

/-- Processes surviving the first-loop filter have their CPU in
`[0, num_cpus)`. -/
theorem filtered_cpu_lt (n : Nat) (procs : List ProcInfo) :
    ∀ e ∈ filtered_procs n procs, e.2.2 < n := by
  intro e he
  obtain ⟨p, _, hp⟩ := List.mem_filterMap.mp he
  unfold proc_filter at hp
  split at hp
  · exact absurd hp (by simp)
  · next c _ =>
    split at hp
    · exact absurd hp (by simp)
    · split at hp
      · simp only [Option.some.injEq] at hp
        subst hp
        simp only []
        omega
      · exact absurd hp (by simp)

/-- `dict_insert` only yields entries of the original map or the
inserted pair. -/
theorem mem_dict_insert {α : Type} (m : List (Nat × α)) (k : Nat) (v : α)
    (e : Nat × α) (he : e ∈ dict_insert m k v) : e ∈ m ∨ e = (k, v) := by
  unfold dict_insert at he
  split at he
  · obtain ⟨e', he', hf⟩ := List.mem_map.mp he
    by_cases hk : (e'.1 == k) = true
    · rw [if_pos hk] at hf
      exact Or.inr hf.symm
    · rw [if_neg hk] at hf
      exact Or.inl (hf ▸ he')
  · rcases List.mem_append.mp he with h | h
    · exact Or.inl h
    · exact Or.inr (by simpa using h)

/-- Entries of the `current_tasks` fold come from the accumulator or
from a filtered process. -/
theorem mem_tasks_fold :
    ∀ (l : List (Nat × String × Nat)) (m : List (Nat × Nat)) (e : Nat × Nat),
      e ∈ l.foldl (fun m t => dict_insert m t.1 t.2.2) m →
      e ∈ m ∨ ∃ t ∈ l, e = (t.1, t.2.2) := by
  intro l
  induction l with
  | nil => intro m e he; exact Or.inl he
  | cons t rest ih =>
    intro m e he
    rcases ih (dict_insert m t.1 t.2.2) e he with h | ⟨t', ht', he'⟩
    · rcases mem_dict_insert m t.1 t.2.2 e h with h' | h'
      · exact Or.inl h'
      · exact Or.inr ⟨t, List.mem_cons_self _ _, h'⟩
    · exact Or.inr ⟨t', List.mem_cons_of_mem _ ht', he'⟩

/-- Every entry of `current_tasks` has its CPU in `[0, num_cpus)`. -/
theorem current_tasks_cpu_lt (n : Nat) (procs : List ProcInfo) :
    ∀ e ∈ current_tasks_of n procs, e.2 < n := by
  intro e he
  rcases mem_tasks_fold (filtered_procs n procs) [] e he with h | ⟨t, ht, he'⟩
  · exact absurd h (List.not_mem_nil e)
  · have := filtered_cpu_lt n procs t ht
    rw [he']
    exact this

/-- Every entry of `current_tasks` carries the pid of some filtered
process. -/
theorem current_tasks_key (n : Nat) (procs : List ProcInfo) :
    ∀ e ∈ current_tasks_of n procs,
      ∃ t ∈ filtered_procs n procs, t.1 = e.1 := by
  intro e he
  rcases mem_tasks_fold (filtered_procs n procs) [] e he with h | ⟨t, ht, he'⟩
  · exact absurd h (List.not_mem_nil e)
  · exact ⟨t, ht, by rw [he']⟩

/-- Every decision-0 record of the second loop is the synthetic negative
built for some observation `(pid, cpu)` of the walked list: its source is
that observed CPU and its destination is `(cpu + 1) % num_cpus`. -/
theorem snapshot_records_neg (env : SnapshotEnv) :
    ∀ (obs : List (Nat × Nat)) (total : Nat) (r : MigrationRecord),
      r ∈ snapshot_records env obs total → r.decision = 0 →
      ∃ p ∈ obs, r.src_cpu = p.2 ∧ r.dst_cpu = (p.2 + 1) % env.num_cpus := by
  intro obs
  induction obs with
  | nil => intro total r hr _; exact absurd hr (by simp [snapshot_records])
  | cons p rest ih =>
    intro total r hr hdec
    obtain ⟨pid, cpu⟩ := p
    rcases hl : dict_lookup env.task_locations pid with _ | prev_cpu <;>
      simp only [snapshot_records, hl] at hr
    · obtain ⟨q, hq, h⟩ := ih (total + 1) r hr hdec
      exact ⟨q, List.mem_cons_of_mem _ hq, h⟩
    · split at hr
      · rcases List.mem_cons.mp hr with h | h
        · exact absurd hdec (by rw [h]; simp [create_record])
        · obtain ⟨q, hq, hh⟩ := ih (total + 1) r h hdec
          exact ⟨q, List.mem_cons_of_mem _ hq, hh⟩
      · split at hr
        · rcases List.mem_cons.mp hr with h | h
          · refine ⟨(pid, cpu), List.mem_cons_self _ _, ?_, ?_⟩
            · rw [h]; rfl
            · rw [h]; rfl
          · obtain ⟨q, hq, hh⟩ := ih (total + 1) r h hdec
            exact ⟨q, List.mem_cons_of_mem _ hq, hh⟩
        · obtain ⟨q, hq, hh⟩ := ih (total + 1) r hr hdec
          exact ⟨q, List.mem_cons_of_mem _ hq, hh⟩

/-- For `s < n`, the cyclic successor `(s + 1) % n` equals `s` exactly
when `n = 1`. -/
theorem succ_mod_eq_self_iff (s n : Nat) (h : s < n) : (s + 1) % n = s ↔ n = 1 := by
  constructor
  · intro he
    rcases Nat.lt_or_ge (s + 1) n with hlt | hge
    · rw [Nat.mod_eq_of_lt hlt] at he; omega
    · have hn : n = s + 1 := by omega
      rw [hn, Nat.mod_self] at he
      omega
  · intro h1
    have hs : s = 0 := by omega
    rw [h1, hs]

/-- C6: every `MigrationRecord` a snapshot emits with `decision = 0` has
`dst_cpu = (src_cpu + 1) % num_cpus`, and such a record has
`src_cpu = dst_cpu` exactly when `num_cpus = 1`. -/
theorem negative_dst_cpu (topo : Nat → Option Int) (s : CollectorState) (t : Tick)
    (r : MigrationRecord)
    (hr : r ∈ snapshot_records (snapshot_env topo s t)
      (current_tasks_of s.num_cpus t.procs) s.stats_total)
    (hdec : r.decision = 0) :
    r.dst_cpu = (r.src_cpu + 1) % s.num_cpus ∧
      (r.src_cpu = r.dst_cpu ↔ s.num_cpus = 1) := by
  obtain ⟨p, hp, hsrc, hdst⟩ :=
    snapshot_records_neg (snapshot_env topo s t) _ s.stats_total r hr hdec
  have hlt : p.2 < s.num_cpus := current_tasks_cpu_lt s.num_cpus t.procs p hp
  have hn : (snapshot_env topo s t).num_cpus = s.num_cpus := rfl
  rw [hn] at hdst
  constructor
  · rw [hdst, hsrc]
  · rw [hdst, hsrc]
    rw [eq_comm]
    exact succ_mod_eq_self_iff p.2 s.num_cpus hlt

/-- Witness for C6: the negative record emitted for pid 1 in the
`stateW`/`tickW` snapshot has `dst_cpu = (0 + 1) % 4 = 1 ≠ src_cpu`. -/
theorem negative_dst_cpu_witness :
    negRecordW.dst_cpu = (negRecordW.src_cpu + 1) % stateW.num_cpus ∧
      (negRecordW.src_cpu = negRecordW.dst_cpu ↔ stateW.num_cpus = 1) :=
  negative_dst_cpu topoW stateW tickW negRecordW
    (by
      rw [show snapshot_records (snapshot_env topoW stateW tickW)
          (current_tasks_of stateW.num_cpus tickW.procs) stateW.stats_total
          = [negRecordW] from rfl]
      exact List.mem_cons_self _ _)
    rfl

/-- The decision-1 records of the second loop are exactly one per walked
observation whose pid has a previous location differing from the current
one, carrying `(pid, prev_cpu, curr_cpu)`, in walk order. -/
theorem snapshot_records_pos_map (env : SnapshotEnv) :
    ∀ (obs : List (Nat × Nat)) (total : Nat),
      ((snapshot_records env obs total).filter (fun r => r.decision == 1)).map
          (fun r => (r.pid, r.src_cpu, r.dst_cpu))
        = obs.filterMap (fun p =>
            match dict_lookup env.task_locations p.1 with
            | some prev => if prev ≠ p.2 then some (p.1, prev, p.2) else none
            | none => none) := by
  intro obs
  induction obs with
  | nil => intro total; simp [snapshot_records]
  | cons p rest ih =>
    intro total
    obtain ⟨pid, cpu⟩ := p
    rcases hl : dict_lookup env.task_locations pid with _ | prev_cpu <;>
      simp only [snapshot_records, hl, List.filterMap_cons]
    · exact ih (total + 1)
    · split
      · next hne =>
        have h1 : ((create_record env pid prev_cpu cpu true).decision == 1) = true := by
          simp [create_record]
        rw [List.filter_cons, if_pos h1, List.map_cons, ih (total + 1)]
        rfl
      · next hne =>
        split
        · next h5 =>
          have h0 : ((create_record env pid cpu ((cpu + 1) % env.num_cpus) false).decision
              == 1) = false := by simp [create_record]
          rw [List.filter_cons, if_neg (by simp [h0]), ih (total + 1)]
        · next h5 => exact ih (total + 1)

/-- C7: the diff of the task-location map emits a transition — and hence
a decision-1 record `(pid, prev_cpu, curr_cpu)` — exactly for the pids
present in both the previous map and the current sample with differing
CPUs (newly appeared pids find no previous location and disappeared pids
are not walked, so neither produces a record), and the snapshot then
replaces the tracker's map wholesale with the current sample's map. -/
theorem task_diff_spec (topo : Nat → Option Int) (s : CollectorState) (t : Tick) :
    ((snapshot_records (snapshot_env topo s t) (current_tasks_of s.num_cpus t.procs)
          s.stats_total).filter (fun r => r.decision == 1)).map
        (fun r => (r.pid, r.src_cpu, r.dst_cpu))
      = (current_tasks_of s.num_cpus t.procs).filterMap (fun p =>
          match dict_lookup s.task_locations p.1 with
          | some prev => if prev ≠ p.2 then some (p.1, prev, p.2) else none
          | none => none) ∧
    (take_snapshot topo s t).task_locations = current_tasks_of s.num_cpus t.procs := by
  constructor
  · exact snapshot_records_pos_map (snapshot_env topo s t)
      (current_tasks_of s.num_cpus t.procs) s.stats_total
  · simp only [take_snapshot, flush_buffer]
    split
    · split <;> rfl
    · rfl

/-- `flush_buffer` preserves the log-plus-buffer record sequence. -/
theorem flush_log_buffer (s : CollectorState) :
    (flush_buffer s).log ++ (flush_buffer s).data_buffer = s.log ++ s.data_buffer := by
  unfold flush_buffer
  split
  · rfl
  · simp

/-- `flush_buffer` always leaves the buffer empty. -/
theorem flush_buffer_empty (s : CollectorState) : (flush_buffer s).data_buffer = [] := by
  unfold flush_buffer
  split
  · assumption
  · rfl

/-- Each `take_snapshot` extends the log-plus-buffer record sequence by
exactly the records it emits. -/
theorem take_snapshot_log_buffer (topo : Nat → Option Int) (s : CollectorState) (t : Tick) :
    (take_snapshot topo s t).log ++ (take_snapshot topo s t).data_buffer
      = s.log ++ s.data_buffer ++ snapshot_records (snapshot_env topo s t)
          (current_tasks_of s.num_cpus t.procs) s.stats_total := by
  simp only [take_snapshot]
  split
  · rw [flush_log_buffer]
    simp
  · simp

/-- C9: when the snapshot loop stops — whatever ended the tick sequence —
the final flush leaves the buffer empty and the log holds every record
that was in the buffer or was appended to it during the run, in order:
no buffered record is dropped on shutdown. -/
theorem final_flush_no_loss (topo : Nat → Option Int) (s0 : CollectorState)
    (ticks : List Tick) :
    (collect topo s0 ticks).data_buffer = [] ∧
    (collect topo s0 ticks).log
      = s0.log ++ s0.data_buffer ++ collect_emitted topo s0 ticks := by
  have key : ∀ (ticks : List Tick) (s : CollectorState),
      (ticks.foldl (take_snapshot topo) s).log ++ (ticks.foldl (take_snapshot topo) s).data_buffer
        = s.log ++ s.data_buffer ++ collect_emitted topo s ticks := by
    intro ticks
    induction ticks with
    | nil => intro s; simp [collect_emitted]
    | cons t ts ih =>
      intro s
      simp only [List.foldl_cons, collect_emitted]
      rw [ih, take_snapshot_log_buffer]
      simp
  refine ⟨flush_buffer_empty _, ?_⟩
  have h2 := flush_log_buffer (ticks.foldl (take_snapshot topo) s0)
  have h3 := flush_buffer_empty (ticks.foldl (take_snapshot topo) s0)
  unfold collect
  rw [← key ticks s0, ← h2, h3]
  simp

/-- One unfolding step of `dict_lookup` on a non-empty map. -/
theorem dict_lookup_cons {α : Type} (a : Nat × α) (m : List (Nat × α)) (k : Nat) :
    dict_lookup (a :: m) k = if (a.1 == k) = true then some a.2 else dict_lookup m k := by
  unfold dict_lookup
  cases hk : a.1 == k
  · simp [List.find?_cons, hk]
  · simp [List.find?_cons, hk]

/-- A successful `dict_lookup` result is an entry of the map. -/
theorem dict_lookup_mem {α : Type} :
    ∀ (m : List (Nat × α)) (k : Nat) (v : α),
      dict_lookup m k = some v → (k, v) ∈ m := by
  intro m
  induction m with
  | nil => intro k v h; exact absurd h (by simp [dict_lookup])
  | cons a m ih =>
    intro k v h
    rw [dict_lookup_cons] at h
    split at h
    · next hk =>
      obtain ⟨a1, a2⟩ := a
      simp only [beq_iff_eq] at hk
      simp only [Option.some.injEq] at h
      subst hk
      subst h
      exact List.mem_cons_self _ _
    · exact List.mem_cons_of_mem _ (ih k v h)

/-- A key carried by some entry of the map is found by `dict_lookup`. -/
theorem dict_lookup_some_of_key {α : Type} :
    ∀ (m : List (Nat × α)) (k : Nat), (∃ e ∈ m, e.1 = k) →
      ∃ v, dict_lookup m k = some v := by
  intro m
  induction m with
  | nil => intro k h; obtain ⟨e, he, _⟩ := h; exact absurd he (List.not_mem_nil e)
  | cons a m ih =>
    intro k h
    rw [dict_lookup_cons]
    by_cases hk : (a.1 == k) = true
    · exact ⟨a.2, if_pos hk⟩
    · rw [if_neg hk]
      obtain ⟨e, he, hek⟩ := h
      rcases List.mem_cons.mp he with rfl | he'
      · exact absurd (by simp [hek]) hk
      · exact ih k ⟨e, he', hek⟩

/-- The `task_info` fold keeps every key it starts with or walks. -/
theorem task_info_fold_key :
    ∀ (l : List (Nat × String × Nat)) (ti0 : List (Nat × String)) (k : Nat),
      ((∃ e ∈ ti0, e.1 = k) ∨ (∃ t ∈ l, t.1 = k)) →
      ∃ e ∈ l.foldl (fun ti t =>
          if ti.any (fun e => e.1 == t.1) then ti else ti ++ [(t.1, t.2.1)]) ti0,
        e.1 = k := by
  intro l
  induction l with
  | nil =>
    intro ti0 k h
    rcases h with h | ⟨t, ht, _⟩
    · exact h
    · exact absurd ht (List.not_mem_nil t)
  | cons t l ih =>
    intro ti0 k h
    simp only [List.foldl_cons]
    apply ih
    by_cases hin : (ti0.any (fun e => e.1 == t.1)) = true
    · rw [if_pos hin]
      rcases h with h | ⟨t', ht', hk⟩
      · exact Or.inl h
      · rcases List.mem_cons.mp ht' with rfl | ht''
        · obtain ⟨e, he, het⟩ := List.any_eq_true.mp hin
          exact Or.inl ⟨e, he, by rw [beq_iff_eq] at het; rw [het, hk]⟩
        · exact Or.inr ⟨t', ht'', hk⟩
    · rw [if_neg hin]
      rcases h with h | ⟨t', ht', hk⟩
      · obtain ⟨e, he, hek⟩ := h
        exact Or.inl ⟨e, List.mem_append_left _ he, hek⟩
      · rcases List.mem_cons.mp ht' with rfl | ht''
        · exact Or.inl ⟨(t'.1, t'.2.1), List.mem_append_right _ (by simp), hk⟩
        · exact Or.inr ⟨t', ht'', hk⟩

/-- Every entry the `task_info` fold produces was in the initial map or
records the observed name of a walked process. -/
theorem task_info_fold_src :
    ∀ (l : List (Nat × String × Nat)) (ti0 : List (Nat × String)) (e : Nat × String),
      e ∈ l.foldl (fun ti t =>
          if ti.any (fun e => e.1 == t.1) then ti else ti ++ [(t.1, t.2.1)]) ti0 →
      e ∈ ti0 ∨ ∃ t ∈ l, e = (t.1, t.2.1) := by
  intro l
  induction l with
  | nil => intro ti0 e he; exact Or.inl he
  | cons t l ih =>
    intro ti0 e he
    simp only [List.foldl_cons] at he
    rcases ih _ e he with h | ⟨t', ht', he'⟩
    · by_cases hin : (ti0.any (fun e => e.1 == t.1)) = true
      · rw [if_pos hin] at h
        exact Or.inl h
      · rw [if_neg hin] at h
        rcases List.mem_append.mp h with h' | h'
        · exact Or.inl h'
        · exact Or.inr ⟨t, List.mem_cons_self _ _, by simpa using h'⟩
    · exact Or.inr ⟨t', List.mem_cons_of_mem _ ht', he'⟩

/-- Every record of the second loop is built for one of the walked
observations, and its `comm` is the `task_info` lookup of that pid with
the `"unknown"` default. -/
theorem snapshot_records_comm (env : SnapshotEnv) :
    ∀ (obs : List (Nat × Nat)) (total : Nat) (r : MigrationRecord),
      r ∈ snapshot_records env obs total →
      ∃ p ∈ obs, r.pid = p.1 ∧ r.comm = (dict_lookup env.task_info p.1).getD "unknown" := by
  intro obs
  induction obs with
  | nil => intro total r hr; exact absurd hr (by simp [snapshot_records])
  | cons p rest ih =>
    intro total r hr
    obtain ⟨pid, cpu⟩ := p
    rcases hl : dict_lookup env.task_locations pid with _ | prev_cpu <;>
      simp only [snapshot_records, hl] at hr
    · obtain ⟨q, hq, h⟩ := ih (total + 1) r hr
      exact ⟨q, List.mem_cons_of_mem _ hq, h⟩
    · have step : ∀ (src dst : Nat) (mig : Bool),
          r = create_record env pid src dst mig →
          ∃ p ∈ (pid, cpu) :: rest, r.pid = p.1 ∧
            r.comm = (dict_lookup env.task_info p.1).getD "unknown" := by
        intro src dst mig h
        exact ⟨(pid, cpu), List.mem_cons_self _ _, by rw [h]; rfl, by rw [h]; rfl⟩
      split at hr
      · rcases List.mem_cons.mp hr with h | h
        · exact step prev_cpu cpu true h
        · obtain ⟨q, hq, hh⟩ := ih (total + 1) r h
          exact ⟨q, List.mem_cons_of_mem _ hq, hh⟩
      · split at hr
        · rcases List.mem_cons.mp hr with h | h
          · exact step cpu ((cpu + 1) % env.num_cpus) false h
          · obtain ⟨q, hq, hh⟩ := ih (total + 1) r h
            exact ⟨q, List.mem_cons_of_mem _ hq, hh⟩
        · obtain ⟨q, hq, hh⟩ := ih (total + 1) r hr
          exact ⟨q, List.mem_cons_of_mem _ hq, hh⟩

/-- C10: the `"unknown"` fallback for `comm` is unreachable in emitted
records — every record a snapshot emits is for a pid of the current
sample, whose name was put into `task_info` before the record loop ran,
so its `comm` is the name `task_info` holds for that pid: either the name
observed this snapshot for a newly seen pid, or the name the (pruned,
hence also observed) map already carried. -/
theorem comm_fallback_unreachable (topo : Nat → Option Int) (s : CollectorState)
    (t : Tick) (r : MigrationRecord)
    (hr : r ∈ snapshot_records (snapshot_env topo s t)
      (current_tasks_of s.num_cpus t.procs) s.stats_total) :
    ∃ nm, dict_lookup (task_info_after s.num_cpus t.procs s.task_info) r.pid = some nm ∧
      r.comm = nm ∧
      ((r.pid, nm) ∈ s.task_info ∨
        ∃ fp ∈ filtered_procs s.num_cpus t.procs, fp.1 = r.pid ∧ fp.2.1 = nm) := by
  obtain ⟨p, hp, hpid, hcomm⟩ :=
    snapshot_records_comm (snapshot_env topo s t) _ s.stats_total r hr
  obtain ⟨fp, hfp, hfpk⟩ := current_tasks_key s.num_cpus t.procs p hp
  have hkey : ∃ e ∈ task_info_after s.num_cpus t.procs s.task_info, e.1 = p.1 :=
    task_info_fold_key (filtered_procs s.num_cpus t.procs) s.task_info p.1
      (Or.inr ⟨fp, hfp, hfpk⟩)
  obtain ⟨nm, hnm⟩ :=
    dict_lookup_some_of_key (task_info_after s.num_cpus t.procs s.task_info) p.1 hkey
  refine ⟨nm, by rw [hpid]; exact hnm, ?_, ?_⟩
  · rw [hcomm]
    have : dict_lookup (snapshot_env topo s t).task_info p.1 = some nm := hnm
    rw [this]
    rfl
  · have hmem : (p.1, nm) ∈ task_info_after s.num_cpus t.procs s.task_info :=
      dict_lookup_mem _ _ _ hnm
    rcases task_info_fold_src (filtered_procs s.num_cpus t.procs) s.task_info _ hmem
      with h | ⟨t', ht', he⟩
    · exact Or.inl (by rw [hpid]; exact h)
    · refine Or.inr ⟨t', ht', ?_, ?_⟩
      · rw [hpid]
        exact (congrArg Prod.fst he).symm
      · exact (congrArg Prod.snd he).symm

/-- Witness for C10: the record emitted for pid 1 carries `comm` =
"taskA", the name observed for pid 1 in the tick's process list. -/
theorem comm_fallback_unreachable_witness :
    ∃ nm, dict_lookup (task_info_after stateW.num_cpus tickW.procs stateW.task_info)
        negRecordW.pid = some nm ∧
      negRecordW.comm = nm ∧
      ((negRecordW.pid, nm) ∈ stateW.task_info ∨
        ∃ fp ∈ filtered_procs stateW.num_cpus tickW.procs,
          fp.1 = negRecordW.pid ∧ fp.2.1 = nm) :=
  comm_fallback_unreachable topoW stateW tickW negRecordW
    (by
      rw [show snapshot_records (snapshot_env topoW stateW tickW)
          (current_tasks_of stateW.num_cpus tickW.procs) stateW.stats_total
          = [negRecordW] from rfl]
      exact List.mem_cons_self _ _)

/-- C3: the per-CPU load estimate is `100 × (1 − idle_delta/total_delta)`
clamped to `[0, 100]`, where `total_delta` sums all seven counters; it is
exactly `0` whenever `total_delta ≤ 0`, and exactly `0` for any `cpu_id`
outside the range of either snapshot. -/
theorem get_cpu_load_spec :
    (∀ (prev curr : List CpuTimes) (i : Nat),
        prev.length ≤ i ∨ curr.length ≤ i → get_cpu_load prev curr i = 0) ∧
    (∀ (prev curr : List CpuTimes) (i : Nat) (p c : CpuTimes),
        prev[i]? = some p → curr[i]? = some c →
        (cpu_times_total c - cpu_times_total p ≤ 0 → get_cpu_load prev curr i = 0) ∧
        (¬ (cpu_times_total c - cpu_times_total p ≤ 0) →
          get_cpu_load prev curr i
            = max 0 (min 100 (100 * (1 - (c.idle - p.idle) /
                (cpu_times_total c - cpu_times_total p)))))) := by
  constructor
  · intro prev curr i h
    rcases h with h | h
    · have hp : prev[i]? = none := List.getElem?_eq_none h
      cases hc : curr[i]? <;> simp [get_cpu_load, hp, hc]
    · have hc : curr[i]? = none := List.getElem?_eq_none h
      cases hp : prev[i]? <;> simp [get_cpu_load, hp, hc]
  · intro prev curr i p c hp hc
    constructor
    · intro hle
      simp only [get_cpu_load, hp, hc]
      rw [if_pos hle]
    · intro hgt
      simp only [get_cpu_load, hp, hc]
      rw [if_neg hgt]

/-- Witness for C3: an out-of-range CPU yields 0; identical snapshots
(`total_delta = 0`) yield 0; and one unit each of user and idle time
gives the clamped formula value `100 × (1 − 1/2) = 50`. -/
theorem get_cpu_load_spec_witness :
    get_cpu_load [] [ctBusyIdle] 0 = 0 ∧
    get_cpu_load [ctZero] [ctZero] 0 = 0 ∧
    get_cpu_load [ctZero] [ctBusyIdle] 0
      = max 0 (min 100 (100 * (1 - (ctBusyIdle.idle - ctZero.idle) /
          (cpu_times_total ctBusyIdle - cpu_times_total ctZero)))) := by
  refine ⟨?_, ?_, ?_⟩
  · exact get_cpu_load_spec.1 [] [ctBusyIdle] 0 (Or.inl (by simp))
  · exact (get_cpu_load_spec.2 [ctZero] [ctZero] 0 ctZero ctZero rfl rfl).1
      (by norm_num [cpu_times_total, ctZero])
  · exact (get_cpu_load_spec.2 [ctZero] [ctBusyIdle] 0 ctZero ctBusyIdle rfl rfl).2
      (by norm_num [cpu_times_total, ctZero, ctBusyIdle])

/-- One unfolding step of `nearest_row` on a non-empty stream. -/
theorem nearest_row_cons {α : Type} (t : Int) (r : Int × α) (rs : List (Int × α)) :
    nearest_row t (r :: rs) = match nearest_row t rs with
      | none => some r
      | some b => if |t - b.1| < |t - r.1| then some b else some r := rfl

/-- A non-empty stream always yields a nearest row. -/
theorem nearest_row_ne_none {α : Type} (t : Int) (r : Int × α) (rs : List (Int × α)) :
    nearest_row t (r :: rs) ≠ none := by
  rw [nearest_row_cons]
  rcases h : nearest_row t rs with _ | b0
  · simp
  · show (if |t - b0.1| < |t - r.1| then some b0 else some r) ≠ none
    split <;> simp

/-- C8: the join selects, per state row, the other-stream row whose
timestamp is nearest in absolute distance (not merely the latest
timestamp ≤ the state row's); on the spec's streams — state timestamps
`[10, 20, 30]`, energy timestamps `[9, 21]` — it pairs state 10 with
energy 9, state 20 with energy 21, and state 30 with energy 21. -/
theorem merge_nearest_spec :
    (∀ (α : Type) (t : Int) (rows : List (Int × α)) (b : Int × α),
        nearest_row t rows = some b →
        b ∈ rows ∧ ∀ x ∈ rows, |t - b.1| ≤ |t - x.1|) ∧
    merge_nearest [((10 : Int), "s10"), (20, "s20"), (30, "s30")]
        [((9 : Int), "e9"), (21, "e21")]
      = [((10, "s10"), some (9, "e9")), ((20, "s20"), some (21, "e21")),
         ((30, "s30"), some (21, "e21"))] := by
  constructor
  · intro α t rows
    induction rows with
    | nil => intro b hb; exact absurd hb (by simp [nearest_row])
    | cons r rs ih =>
      intro b hb
      rcases h : nearest_row t rs with _ | b0
      · have hr' : nearest_row t (r :: rs) = some r := by rw [nearest_row_cons, h]
        have hrb : r = b := Option.some.inj (hr' ▸ hb)
        subst hrb
        refine ⟨List.mem_cons_self _ _, ?_⟩
        intro x hx
        rcases List.mem_cons.mp hx with rfl | hx'
        · exact le_refl _
        · cases rs with
          | nil => exact absurd hx' (List.not_mem_nil x)
          | cons r' rs' => exact absurd h (nearest_row_ne_none t r' rs')
      · have key : nearest_row t (r :: rs)
            = if |t - b0.1| < |t - r.1| then some b0 else some r := by
          rw [nearest_row_cons, h]
        obtain ⟨hbm, hbd⟩ := ih b0 h
        by_cases hlt : |t - b0.1| < |t - r.1|
        · rw [key, if_pos hlt] at hb
          have hbe : b0 = b := Option.some.inj hb
          subst hbe
          refine ⟨List.mem_cons_of_mem _ hbm, ?_⟩
          intro x hx
          rcases List.mem_cons.mp hx with rfl | hx'
          · exact le_of_lt hlt
          · exact hbd x hx'
        · rw [key, if_neg hlt] at hb
          have hbe : r = b := Option.some.inj hb
          subst hbe
          refine ⟨List.mem_cons_self _ _, ?_⟩
          intro x hx
          rcases List.mem_cons.mp hx with rfl | hx'
          · exact le_refl _
          · exact le_trans (not_lt.mp hlt) (hbd x hx')
  · decide

/-- Witness for C8's minimality part: on the energy stream `[9, 21]`,
the row selected for state timestamp 10 is `(9, "e9")`, a member of the
stream at minimal distance from 10. -/
theorem merge_nearest_spec_witness :
    ((9 : Int), "e9") ∈ [((9 : Int), "e9"), ((21 : Int), "e21")] ∧
    ∀ x ∈ [((9 : Int), "e9"), ((21 : Int), "e21")],
      |(10 : Int) - 9| ≤ |(10 : Int) - x.1| :=
  merge_nearest_spec.1 String 10 [((9 : Int), "e9"), (21, "e21")] (9, "e9") (by decide)
